import Mathlib

/-!
Shallow embedding of the BazBeans coordination core (Python) in Lean 4.

The embedding follows the source files:
  * `src/bazbeans/node_pool.py`  — `NodePool` (Redis-backed registry)
  * `src/bazbeans/node_agent.py` — `NodeAgent` (freeze/unfreeze, heartbeat,
    command drain, built-in command handlers)
  * `src/pubsub.py`              — `PubSubPublisher` / `LoadBalancerNotifier`
  * `src/nginx_updater.py`       — `NginxUpdater`
  * `src/config.py`              — `BazBeansConfig` defaults

The Redis coordinator is modelled as an explicit state record `Coord`:
sets become lists with set-flavoured insert/remove, hashes become
association lists, the heartbeat keyspace becomes an association list from
node id to the stored JSON record (TTL expiry is modelled as an explicit
removal), and per-node command queues become lists.  JSON values are
modelled by `JVal`.  Wall-clock readings (`time.time()`,
`datetime.utcnow()`) are threaded in as explicit parameters.
-/

namespace BazBeans

/-- JSON-like values as they occur in the repository: strings, booleans and
numbers (Python floats carry no semantic weight here, so numbers are `Int`). -/
inductive JVal where
  | jstr : String → JVal
  | jbool : Bool → JVal
  | jnum : Int → JVal
  deriving DecidableEq, Repr

/-- Python-`dict` insertion on an association list: replace the value in
place when the key exists, append otherwise (matches `d[k] = v`). -/
def assocInsert {α : Type} : List (String × α) → String → α → List (String × α)
  | [], k, v => [(k, v)]
  | (k₀, v₀) :: rest, k, v =>
      if k₀ = k then (k, v) :: rest else (k₀, v₀) :: assocInsert rest k v

/-- Key lookup on an association list (first match wins, like `dict`/`HGET`). -/
def assocGet {α : Type} : List (String × α) → String → Option α
  | [], _ => none
  | (k₀, v₀) :: rest, k => if k₀ = k then some v₀ else assocGet rest k

/-- Apply a batch of field updates in order — `HSET key mapping={...}` and the
Python `dict(**a, **b)` spread both update fields left to right. -/
def assocInsertMany {α : Type} (d : List (String × α)) (updates : List (String × α)) :
    List (String × α) :=
  updates.foldl (fun acc kv => assocInsert acc kv.1 kv.2) d

/-- `SADD`: append the member unless already present. -/
def saddList (l : List String) (n : String) : List String :=
  if l.contains n then l else l ++ [n]

/-- `SREM`: remove every occurrence of the member. -/
def sremList (l : List String) (n : String) : List String :=
  l.filter (fun m => m != n)

/-- The coordinator (Redis) state visible to the BazBeans core:
`bazbeans:nodes:all`, `bazbeans:nodes:active`, the per-node
`bazbeans:node:<id>:status` hashes, the per-node
`bazbeans:node:<id>:heartbeat` records (present iff not yet expired), the
per-node `bazbeans:node:<id>:commands` queues, and the
`bazbeans:node_ips` hash. -/
structure Coord where
  allNodes : List String
  activeNodes : List String
  statusHashes : List (String × List (String × String))
  heartbeats : List (String × List (String × JVal))
  queues : List (String × List (List (String × JVal)))
  nodeIps : List (String × String)
  deriving DecidableEq, Repr

/-- The empty coordinator (freshly flushed Redis). -/
def emptyCoord : Coord :=
  { allNodes := [], activeNodes := [], statusHashes := [], heartbeats := []
    queues := [], nodeIps := [] }

/-- `HGETALL` of a node status hash; a missing key reads as the empty hash. -/
def statusOf (c : Coord) (n : String) : List (String × String) :=
  (assocGet c.statusHashes n).getD []

/-- `HSET` a mapping into a node status hash. -/
def hsetNode (c : Coord) (n : String) (updates : List (String × String)) : Coord :=
  { c with statusHashes := assocInsert c.statusHashes n (assocInsertMany (statusOf c n) updates) }

/-- `HGET` of one field of a node status hash. -/
def hgetField (c : Coord) (n : String) (field : String) : Option String :=
  assocGet (statusOf c n) field

/-- Whether the heartbeat key of a node exists (`EXISTS`, i.e. not expired). -/
def hbExists (c : Coord) (n : String) : Bool :=
  (assocGet c.heartbeats n).isSome

/-- `NodePool.register` (node_pool.py lines 34–49): pipeline of
`SADD all`, `SADD active` and a full status-hash write. -/
def poolRegister (n dc ts : String) (c : Coord) : Coord :=
  let c := { c with allNodes := saddList c.allNodes n
                    activeNodes := saddList c.activeNodes n }
  hsetNode c n
    [("status", "registered"), ("details", ""), ("timestamp", ts),
     ("data_center", dc), ("is_frozen", "false"), ("is_active", "true")]

/-- `NodePool.freeze` (node_pool.py lines 72–88): pipeline of `SREM active`
and a status-hash update (note: `data_center` is left untouched). -/
def poolFreeze (n reason ts : String) (c : Coord) : Coord :=
  let c := { c with activeNodes := sremList c.activeNodes n }
  hsetNode c n
    [("status", "frozen"), ("details", reason), ("timestamp", ts),
     ("is_frozen", "true"), ("is_active", "false")]

/-- `NodePool.unfreeze` (node_pool.py lines 90–103): pipeline of `SADD active`
and a status-hash update. -/
def poolUnfreeze (n ts : String) (c : Coord) : Coord :=
  let c := { c with activeNodes := saddList c.activeNodes n }
  hsetNode c n
    [("status", "active"), ("details", "Unfrozen"), ("timestamp", ts),
     ("is_frozen", "false"), ("is_active", "true")]

/-- The heartbeat record built by `NodePool.heartbeat` (node_pool.py lines
51–70): `{"timestamp": ..., "node_id": ..., "data_center": ..., **metrics}`. -/
def heartbeatData (n dc : String) (ts : Int) (metrics : List (String × JVal)) :
    List (String × JVal) :=
  assocInsertMany
    [("timestamp", JVal.jnum ts), ("node_id", JVal.jstr n), ("data_center", JVal.jstr dc)]
    metrics

/-- `NodePool.heartbeat`: `SETEX` of the JSON record under the heartbeat key. -/
def poolHeartbeat (n dc : String) (ts : Int) (metrics : List (String × JVal))
    (c : Coord) : Coord :=
  { c with heartbeats := assocInsert c.heartbeats n (heartbeatData n dc ts metrics) }

/-- TTL expiry of a heartbeat key: Redis drops the key once `heartbeat_ttl`
elapses; modelled as an explicit state transition. -/
def expireHeartbeat (n : String) (c : Coord) : Coord :=
  { c with heartbeats := c.heartbeats.filter (fun kv => kv.1 != n) }

/-- The loop body of `NodePool.get_active_nodes` (node_pool.py lines 105–123):
iterate over the snapshot of `SMEMBERS active`; keep members whose heartbeat
key exists, `SREM` the rest. -/
def gaLoop : List String → Coord → List String × Coord
  | [], c => ([], c)
  | n :: rest, c =>
      if hbExists c n then
        let (r, c') := gaLoop rest c
        (n :: r, c')
      else
        gaLoop rest { c with activeNodes := sremList c.activeNodes n }

/-- `NodePool.get_active_nodes`: returns the live members and performs
auto-cleanup of dead ones. -/
def getActiveNodes (c : Coord) : List String × Coord :=
  gaLoop c.activeNodes c

/-- The loop body of `NodePool.cleanup_dead_nodes` (node_pool.py lines
161–177): `SREM` members without a heartbeat, collecting the removed ids. -/
def cdLoop : List String → Coord → List String × Coord
  | [], c => ([], c)
  | n :: rest, c =>
      if hbExists c n then
        cdLoop rest c
      else
        let (r, c') := cdLoop rest { c with activeNodes := sremList c.activeNodes n }
        (n :: r, c')

/-- `NodePool.cleanup_dead_nodes`. -/
def cleanupDeadNodes (c : Coord) : List String × Coord :=
  cdLoop c.activeNodes c

/-- `NodePool.update_status` (node_pool.py lines 202–214): `HSET` of only the
`status`, `details` and `timestamp` fields. -/
def poolUpdateStatus (n status details ts : String) (c : Coord) : Coord :=
  hsetNode c n [("status", status), ("details", details), ("timestamp", ts)]

/-- `NodePool.send_command` (node_pool.py lines 179–188): `RPUSH` onto the
target node queue. -/
def poolSendCommand (n : String) (cmd : List (String × JVal)) (c : Coord) : Coord :=
  { c with queues := assocInsert c.queues n ((assocGet c.queues n).getD [] ++ [cmd]) }

/-- `NodePool.get_command` (node_pool.py lines 190–200): `LPOP` from the own
queue; `none` when the queue is empty or absent. -/
def poolGetCommand (n : String) (c : Coord) : Option (List (String × JVal)) × Coord :=
  match assocGet c.queues n with
  | some (cmd :: rest) => (some cmd, { c with queues := assocInsert c.queues n rest })
  | _ => (none, c)

/-- `NodePool.get_node_status` (node_pool.py lines 134–159): read the
heartbeat JSON (or the `NO HEARTBEAT` placeholder), `HGETALL` the status
hash, and merge as the Python dict literal
`{"node_id": node_id, **status_data, **heartbeat}` — later spreads win. -/
def getNodeStatus (c : Coord) (n : String) : List (String × JVal) :=
  let heartbeat : List (String × JVal) :=
    match assocGet c.heartbeats n with
    | some rec => rec
    | none => [("status", JVal.jstr "NO HEARTBEAT")]
  let statusData : List (String × JVal) := (statusOf c n).map (fun kv => (kv.1, JVal.jstr kv.2))
  assocInsertMany (assocInsertMany [("node_id", JVal.jstr n)] statusData) heartbeat

/-- An event as built by `PubSubPublisher.publish_event` (pubsub.py lines
29–57): the payload dict, with the `active_nodes` snapshot read from the
coordinator at publish time.  `timestamp` is the `datetime.utcnow()` string,
threaded in as a parameter. -/
structure NodeEvent where
  event : String
  node_id : String
  timestamp : String
  reason : String
  active_nodes : List String
  extra : List (String × JVal)
  deriving DecidableEq, Repr

/-- `PubSubPublisher.publish_event`: reads `SMEMBERS active` and builds the
payload. -/
def publishEvent (c : Coord) (event nid reason ts : String)
    (extra : List (String × JVal)) : NodeEvent :=
  { event := event, node_id := nid, timestamp := ts, reason := reason
    active_nodes := c.activeNodes, extra := extra }

/-- The state of one `NodeAgent` (node_agent.py): its local flags, the shared
coordinator, and the stream of events it has published on the channel. -/
structure AgentState where
  coord : Coord
  is_frozen : Bool
  is_active : Bool
  events : List NodeEvent
  deriving DecidableEq, Repr

/-- A fresh agent over a given coordinator state (`NodeAgent.__init__`:
`is_active = True`, `is_frozen = False`). -/
def initAgent (c : Coord) : AgentState :=
  { coord := c, is_frozen := false, is_active := true, events := [] }

/-- `NodeAgent.freeze` (node_agent.py lines 265–276): guarded by
`if not self.is_frozen`; then sets the flag, calls `NodePool.freeze`, and
publishes `node_frozen` via `LoadBalancerNotifier.notify_frozen`. -/
def agentFreeze (nid reason ts evTs : String) (s : AgentState) : AgentState :=
  if s.is_frozen then s
  else
    let c := poolFreeze nid reason ts s.coord
    let ev := publishEvent c "node_frozen" nid reason evTs []
    { s with is_frozen := true, coord := c, events := s.events ++ [ev] }

/-- `NodeAgent.unfreeze` (node_agent.py lines 278–284): guarded by
`if self.is_frozen`; then clears the flag, calls `NodePool.unfreeze`, and
publishes `node_unfrozen`. -/
def agentUnfreeze (nid ts evTs : String) (s : AgentState) : AgentState :=
  if s.is_frozen then
    let c := poolUnfreeze nid ts s.coord
    let ev := publishEvent c "node_unfrozen" nid "" evTs []
    { s with is_frozen := false, coord := c, events := s.events ++ [ev] }
  else s

/-- The metrics dict built by `NodeAgent._send_heartbeat` (node_agent.py
lines 184–195): system metrics plus the agent's local `is_frozen` /
`is_active` booleans and a timestamp. -/
def agentMetrics (cpu mem disk : Int) (fr act : Bool) (ts : Int) :
    List (String × JVal) :=
  [("cpu_percent", JVal.jnum cpu), ("memory_percent", JVal.jnum mem),
   ("disk_percent", JVal.jnum disk), ("is_frozen", JVal.jbool fr),
   ("is_active", JVal.jbool act), ("timestamp", JVal.jnum ts)]

/-- `NodeAgent._send_heartbeat`: collect the metrics and call
`NodePool.heartbeat`. -/
def agentSendHeartbeat (nid dc : String) (cpu mem disk : Int) (ts : Int)
    (s : AgentState) : AgentState :=
  { s with coord :=
      poolHeartbeat nid dc ts (agentMetrics cpu mem disk s.is_frozen s.is_active ts) s.coord }

/-- A lowercase hexadecimal digit, as CPython renders `\uXXXX` escapes. -/
def hexDigit (n : Nat) : Char :=
  if n < 10 then Char.ofNat (48 + n) else Char.ofNat (87 + n)

/-- The backslash character. -/
def bsChar : Char := Char.ofNat 92

/-- A `\uXXXX` escape for a 16-bit code unit. -/
def uEscape (n : Nat) : List Char :=
  [bsChar, 'u', hexDigit (n / 4096 % 16), hexDigit (n / 256 % 16),
   hexDigit (n / 16 % 16), hexDigit (n % 16)]

/-- CPython `json.dumps` escaping of one character
(`py_encode_basestring_ascii`): backslash (92) and double quote (34) get a
backslash escape, the control characters 8/9/10/12/13 get their short
escapes `\b \t \n \f \r`, every other character outside the printable ASCII
range 32–126 becomes `\uXXXX` (a surrogate pair above U+FFFF), and printable
ASCII passes through. -/
def jsonEscapeChar (c : Char) : List Char :=
  if c.toNat = 92 then [bsChar, bsChar]
  else if c.toNat = 34 then [bsChar, Char.ofNat 34]
  else if c.toNat = 10 then [bsChar, 'n']
  else if c.toNat = 9 then [bsChar, 't']
  else if c.toNat = 13 then [bsChar, 'r']
  else if c.toNat = 8 then [bsChar, 'b']
  else if c.toNat = 12 then [bsChar, 'f']
  else if c.toNat < 32 || c.toNat > 126 then
    if c.toNat ≤ 65535 then uEscape c.toNat
    else uEscape (55296 + (c.toNat - 65536) / 1024)
      ++ uEscape (56320 + (c.toNat - 65536) % 1024)
  else [c]

/-- `json.dumps` escaping of a whole string (without the surrounding
quotes). -/
def jsonEscape (s : String) : String :=
  String.mk (s.data.foldr (fun c acc => jsonEscapeChar c ++ acc) [])

/-- Serialization of a JSON scalar as `json.dumps` renders it. -/
def jvalDumps : JVal → String
  | JVal.jstr s => "\"" ++ jsonEscape s ++ "\""
  | JVal.jbool true => "true"
  | JVal.jbool false => "false"
  | JVal.jnum n => toString n

/-- `json.dumps` of a flat JSON object (the value domain of the
command-result writeback), with the default separators `", "` / `": "` and
key/value string escaping. -/
def jsonDumps (d : List (String × JVal)) : String :=
  "\x7b" ++ String.intercalate ", "
    (d.map (fun kv => "\"" ++ jsonEscape kv.1 ++ "\": " ++ jvalDumps kv.2)) ++ "\x7d"

/-- `NodeAgent._cmd_freeze` (node_agent.py lines 295–299): reads
`command.get("reason", "Administrative action")`, freezes, and returns the
result dict.  (Commands whose `reason` is present but not a string are
outside this model.) -/
def cmdFreeze (nid ts evTs : String) (cmd : List (String × JVal)) (s : AgentState) :
    AgentState × List (String × JVal) :=
  let reason := match assocGet cmd "reason" with
    | some (JVal.jstr r) => r
    | _ => "Administrative action"
  (agentFreeze nid reason ts evTs s, [("status", JVal.jstr "frozen"), ("reason", JVal.jstr reason)])

/-- `NodeAgent._cmd_unfreeze` (node_agent.py lines 301–304). -/
def cmdUnfreeze (nid ts evTs : String) (s : AgentState) :
    AgentState × List (String × JVal) :=
  (agentUnfreeze nid ts evTs s, [("status", JVal.jstr "active")])

/-- A registered command handler as `_handle_commands` calls it: the Python
callable may mutate the agent and the coordinator before it either returns a
result dict (`Except.ok`) or raises (`Except.error` with `str(e)`); the state
component carries whatever it changed either way, as partial mutations
survive an exception. -/
def CommandHandler :=
  List (String × JVal) → AgentState → AgentState × Except String (List (String × JVal))

/-- The built-in `freeze` entry of `command_handlers`
(`_register_builtin_handlers`, node_agent.py lines 79–87): `_cmd_freeze`
never raises. -/
def builtinFreeze (nid ts evTs : String) : CommandHandler := fun cmd s =>
  let (s', res) := cmdFreeze nid ts evTs cmd s
  (s', Except.ok res)

/-- The built-in `unfreeze` entry of `command_handlers`: `_cmd_unfreeze`
never raises. -/
def builtinUnfreeze (nid ts evTs : String) : CommandHandler := fun _ s =>
  let (s', res) := cmdUnfreeze nid ts evTs s
  (s', Except.ok res)

/-- Rendering of a non-string `command.get("type")` under Python `str()`,
for the `f"Unknown command: {cmd_type}"` message. -/
def pyStrOfJVal : JVal → String
  | JVal.jstr s => s
  | JVal.jbool true => "True"
  | JVal.jbool false => "False"
  | JVal.jnum n => toString n

/-- `NodeAgent._handle_commands` (node_agent.py lines 240–263), parametric in
the registered `command_handlers` map (the built-ins merged with any plugin
handlers): `LPOP` one command; when empty, return.  Dispatch on
`command.get("type")`; a registered handler runs under `try`, and the agent
records the outcome with `update_status(f"executed_{cmd_type}",
json.dumps(result))`, or `update_status(f"error_{cmd_type}", str(e))` when it
raised; an unregistered (or non-string, hence never registered) kind is
recorded as `update_status("error", f"Unknown command: {cmd_type}")`. -/
def handleCommandsWith (handlers : String → Option CommandHandler)
    (nid ts : String) (s : AgentState) : AgentState :=
  match poolGetCommand nid s.coord with
  | (none, c) => { s with coord := c }
  | (some cmd, c) =>
    let s1 : AgentState := { s with coord := c }
    match assocGet cmd "type" with
    | some (JVal.jstr ty) =>
        match handlers ty with
        | some h =>
            let (s', out) := h cmd s1
            match out with
            | Except.ok res =>
                { s' with coord :=
                    poolUpdateStatus nid ("executed_" ++ ty) (jsonDumps res) ts s'.coord }
            | Except.error e =>
                { s' with coord :=
                    poolUpdateStatus nid ("error_" ++ ty) e ts s'.coord }
        | none =>
            { s1 with coord :=
                poolUpdateStatus nid "error" ("Unknown command: " ++ ty) ts s1.coord }
    | some v =>
        { s1 with coord :=
            poolUpdateStatus nid "error" ("Unknown command: " ++ pyStrOfJVal v) ts s1.coord }
    | none =>
        { s1 with coord :=
            poolUpdateStatus nid "error" ("Unknown command: " ++ "None") ts s1.coord }

/-- The default `allowed_exec_prefixes` of `BazBeansConfig` (config.py lines
52–60). -/
def defaultAllowedExecPrefixes : List String :=
  ["docker", "systemctl", "ls", "cat", "grep", "ps", "netstat"]

/-- Python `repr` of a list of strings, as an f-string interpolates it into
the refusal message (`['docker', 'systemctl', ...]`). -/
def pyListRepr (l : List String) : String :=
  let q := String.singleton (Char.ofNat 39)
  "[" ++ String.intercalate ", " (l.map (fun s => q ++ s ++ q)) ++ "]"

/-- Python `str.startswith`: code-point prefix test. -/
def pyStartsWith (c p : String) : Bool :=
  p.data.isPrefixOf c.data

/-- Outcome of `_cmd_exec`: either a result dict returned without spawning a
subprocess, or the `subprocess.run` path taken with the given command line
(the subprocess itself is external to this model). -/
inductive ExecOutcome where
  | result : List (String × JVal) → ExecOutcome
  | subprocess : String → ExecOutcome
  deriving DecidableEq, Repr

/-- `NodeAgent._cmd_exec` (node_agent.py lines 306–336): `command.get("command")`,
the falsy check (`if not cmd`), the whitelist check
`any(cmd.startswith(prefix) for prefix in allowed_exec_prefixes)`, then the
`subprocess.run` path.  (Commands whose `command` value is present but not a
string are outside this model.) -/
def cmdExec (allowedExecPrefixes : List String) (cmd : List (String × JVal)) : ExecOutcome :=
  match assocGet cmd "command" with
  | some (JVal.jstr c) =>
      if c = "" then ExecOutcome.result [("error", JVal.jstr "No command specified")]
      else if allowedExecPrefixes.any (fun p => pyStartsWith c p) then
        ExecOutcome.subprocess c
      else
        ExecOutcome.result
          [("error", JVal.jstr ("Command not allowed. Allowed prefixes: " ++
              pyListRepr allowedExecPrefixes))]
  | _ => ExecOutcome.result [("error", JVal.jstr "No command specified")]

/-- Python `p.split("/")` on the code points: the list of chunks between
slashes, keeping empty chunks (so `"/a"` splits to `["", "a"]`). -/
def splitSlash : List Char → List (List Char)
  | [] => [[]]
  | c :: rest =>
      if c = '/' then [] :: splitSlash rest
      else
        match splitSlash rest with
        | h :: t => (c :: h) :: t
        | [] => [[c]]

/-- `p.split("/")` on a string. -/
def splitOnSlash (p : String) : List String :=
  (splitSlash p.data).map (fun l => String.mk l)

/-- `posixpath.normpath`, as `os.path.normpath` behaves on POSIX: drop empty
and `.` components, resolve `..` against a preceding real component, keep
leading `..` components of relative paths, and preserve the leading slash
count (one, or exactly two). -/
def normpath (p : String) : String :=
  if p = "" then "." else
  let slashes : Nat :=
    if pyStartsWith p "/" then
      (if pyStartsWith p "//" && !(pyStartsWith p "///") then 2 else 1)
    else 0
  let comps := splitOnSlash p
  let newComps := comps.foldl (fun acc comp =>
      if comp = "" || comp = "." then acc
      else if comp ≠ ".." || (slashes = 0 && acc = []) || acc.getLast? = some ".." then
        acc ++ [comp]
      else if acc ≠ [] then acc.dropLast
      else acc) []
  let res := String.join (List.replicate slashes "/") ++ String.intercalate "/" newComps
  if res = "" then "." else res

/-- `pathlib.PurePosixPath(p).parent` on an already-normalized path: drop the
last component; the parent of a single component is `.` (or `/` when
absolute). -/
def parentDir (p : String) : String :=
  let pre := (splitOnSlash p).dropLast
  if pre = [] then "." else if pre = [""] then "/" else String.intercalate "/" pre

/-- The ancestor chain created by `mkdir(parents=True, exist_ok=True)`,
innermost first, stopping at `.` or `/`. -/
def ancestorsAux : Nat → String → List String
  | 0, _ => []
  | k + 1, d =>
      if d = "." || d = "/" || d = "" then []
      else d :: ancestorsAux k (parentDir d)

/-- All directories `Path(p).parent.mkdir(parents=True, exist_ok=True)`
guarantees to exist afterwards. -/
def ancestors (d : String) : List String :=
  ancestorsAux (d.length + 1) d

/-- An abstract file system: the set of directories known to exist and the
file contents, keyed by path. -/
structure FileSys where
  dirs : List String
  files : List (String × String)
  deriving DecidableEq, Repr

/-- `NodeAgent._cmd_deploy_file` (node_agent.py lines 338–357): the
missing-field check (`if not file_path or content is None`), `os.path.normpath`,
the `startswith("..")` traversal check, then `mkdir(parents=True)` of the
parent and the file write.  Returns the result dict and the file system after
the call. -/
def cmdDeployFile (path : Option String) (content : Option String) (fs : FileSys) :
    List (String × JVal) × FileSys :=
  let pathFalsy := match path with
    | none => true
    | some p => p = ""
  if pathFalsy || content.isNone then
    ([("error", JVal.jstr "Missing path or content")], fs)
  else
    let p := normpath (path.getD "")
    if pyStartsWith p ".." then
      ([("error", JVal.jstr "Path traversal not allowed")], fs)
    else
      let fs := { fs with dirs := fs.dirs ++ ancestors (parentDir p) }
      let fs := { fs with files := assocInsert fs.files p (content.getD "") }
      ([("status", JVal.jstr "deployed"), ("path", JVal.jstr p)], fs)

/-- The local state of one `NginxUpdater` (nginx_updater.py): the tracked
`active_nodes` snapshot and the upstream file (plus its `.bak` sibling). -/
structure NginxState where
  active_nodes : List String
  upstreamFile : Option String
  backupFile : Option String
  deriving DecidableEq, Repr

/-- Python `set(a) == set(b)` on two lists. -/
def listSetEq (a b : List String) : Bool :=
  a.all (fun n => b.contains n) && b.all (fun n => a.contains n)

/-- `sorted(...)` on node ids: Python sorts strings lexicographically by code
point, which is the `String` linear order. -/
def sortNodeIds (l : List String) : List String :=
  l.insertionSort (fun a b => a ≤ b)

/-- One entry of the upstream body for a node, as `_generate_upstream_config`
renders it (nginx_updater.py lines 178–186): a `server` line when the IP
resolves, a comment line otherwise. -/
def upstreamEntry (resolver : String → Option String) (nodePort : Nat) (nid : String) :
    String :=
  match resolver nid with
  | some ip => "    server " ++ ip ++ ":" ++ toString nodePort ++ ";"
  | none => "    # Could not resolve IP for " ++ nid

/-- The `lines` list of `NginxUpdater._generate_upstream_config`
(nginx_updater.py lines 164–194). -/
def generateUpstreamLines (resolver : String → Option String) (nodePort : Nat)
    (upstreamName nowStr : String) (active : List String) : List String :=
  ["# Generated by BazBeans Nginx Updater",
   "# Updated: " ++ nowStr,
   "upstream " ++ upstreamName ++ " \x7b",
   "    # Active nodes: " ++ toString active.length]
  ++ (sortNodeIds active).map (upstreamEntry resolver nodePort)
  ++ ["    # Load balancing options",
      "    least_conn;",
      "\x7d"]

/-- `_generate_upstream_config`: `"\n".join(lines) + "\n"`. -/
def generateUpstreamConfig (resolver : String → Option String) (nodePort : Nat)
    (upstreamName nowStr : String) (active : List String) : String :=
  String.intercalate "\n" (generateUpstreamLines resolver nodePort upstreamName nowStr active)
    ++ "\n"

/-- `NginxUpdater._update_upstream` (nginx_updater.py lines 134–162): when the
tracked snapshot is empty, re-read `SMEMBERS active` from Redis
(`redisActive`); generate the config; move any existing file to `.bak`; write
the new file.  (The reload subprocess is external to this model.) -/
def updateUpstream (resolver : String → Option String) (nodePort : Nat)
    (upstreamName nowStr : String) (redisActive : List String) (s : NginxState) :
    NginxState :=
  let act := if s.active_nodes = [] then redisActive else s.active_nodes
  let cfg := generateUpstreamConfig resolver nodePort upstreamName nowStr act
  { active_nodes := act
    upstreamFile := some cfg
    backupFile := if s.upstreamFile.isSome then s.upstreamFile else s.backupFile }

/-- `NginxUpdater._update_upstream_if_needed` (nginx_updater.py lines
119–132): skip when `set(event_active) == set(tracked)`, otherwise adopt the
event's list and rewrite. -/
def updateUpstreamIfNeeded (resolver : String → Option String) (nodePort : Nat)
    (upstreamName nowStr : String) (redisActive : List String)
    (eventActive : List String) (s : NginxState) : NginxState :=
  if listSetEq eventActive s.active_nodes then s
  else updateUpstream resolver nodePort upstreamName nowStr redisActive
    { s with active_nodes := eventActive }

/-- One operation of the `NodePool` interface named by the invariant claim,
together with the heartbeat writes and TTL expiries that drive the cleanup
paths. -/
inductive PoolOp where
  | register (n dc ts : String)
  | freeze (n reason ts : String)
  | unfreeze (n ts : String)
  | heartbeat (n dc : String) (ts : Int) (metrics : List (String × JVal))
  | expireHb (n : String)
  | getActive
  | cleanupDead
  deriving DecidableEq, Repr

/-- Apply one `NodePool` operation to the coordinator. -/
def applyOp (op : PoolOp) (c : Coord) : Coord :=
  match op with
  | PoolOp.register n dc ts => poolRegister n dc ts c
  | PoolOp.freeze n reason ts => poolFreeze n reason ts c
  | PoolOp.unfreeze n ts => poolUnfreeze n ts c
  | PoolOp.heartbeat n dc ts metrics => poolHeartbeat n dc ts metrics c
  | PoolOp.expireHb n => expireHeartbeat n c
  | PoolOp.getActive => (getActiveNodes c).2
  | PoolOp.cleanupDead => (cleanupDeadNodes c).2

/-- Run a sequence of `NodePool` operations. -/
def runOps (ops : List PoolOp) (c : Coord) : Coord :=
  ops.foldl (fun c op => applyOp op c) c

/-- The invariant of spec §8: every member of `ACTIVE_NODES` has
`is_frozen == "false"` in its status hash. -/
def ActiveNotFrozen (c : Coord) : Prop :=
  ∀ n, n ∈ c.activeNodes → hgetField c n "is_frozen" = some "false"

theorem assocGet_assocInsert {α : Type} (d : List (String × α)) (k k' : String) (v : α) :
    assocGet (assocInsert d k v) k' = if k' = k then some v else assocGet d k' := by
  induction d with
  | nil =>
      by_cases h : k' = k
      · subst h; simp [assocInsert, assocGet]
      · simp [assocInsert, assocGet, h, Ne.symm h]
  | cons hd tl ih =>
      obtain ⟨k₀, v₀⟩ := hd
      by_cases h : k₀ = k
      · subst h
        by_cases h' : k' = k₀
        · subst h'; simp [assocInsert, assocGet]
        · simp [assocInsert, assocGet, h', Ne.symm h']
      · simp only [assocInsert, if_neg h, assocGet]
        by_cases h' : k₀ = k'
        · subst h'
          have hke : ¬(k₀ = k) := h
          simp [assocGet, fun hh => h hh, Ne.symm (fun hh : k = k₀ => h hh.symm)]
        · simp [assocGet, h', ih]

theorem mem_saddList {l : List String} {m n : String} :
    m ∈ saddList l n ↔ m ∈ l ∨ m = n := by
  by_cases h : n ∈ l
  · rw [saddList, if_pos (List.elem_iff.mpr h)]
    constructor
    · exact Or.inl
    · rintro (hm | rfl)
      · exact hm
      · exact h
  · rw [saddList, if_neg (fun hc => h (List.elem_iff.mp hc))]
    simp

theorem self_mem_saddList (l : List String) (n : String) : n ∈ saddList l n :=
  mem_saddList.mpr (Or.inr rfl)

theorem mem_sremList {l : List String} {m n : String} :
    m ∈ sremList l n ↔ m ∈ l ∧ m ≠ n := by
  simp [sremList]

theorem not_mem_sremList_self (l : List String) (n : String) : n ∉ sremList l n := by
  intro h
  exact (mem_sremList.mp h).2 rfl

theorem statusOf_hsetNode_self (c : Coord) (m : String) (u : List (String × String)) :
    statusOf (hsetNode c m u) m = assocInsertMany (statusOf c m) u := by
  simp [statusOf, hsetNode, assocGet_assocInsert]

theorem statusOf_hsetNode_ne (c : Coord) {n m : String} (h : n ≠ m)
    (u : List (String × String)) : statusOf (hsetNode c m u) n = statusOf c n := by
  simp [statusOf, hsetNode, assocGet_assocInsert, h]

theorem hgetField_eq (c : Coord) (n f : String) :
    hgetField c n f = assocGet (statusOf c n) f := rfl

theorem hgetField_poolRegister_self (n dc ts : String) (c : Coord) :
    hgetField (poolRegister n dc ts c) n "is_frozen" = some "false" := by
  simp [hgetField, poolRegister, statusOf_hsetNode_self, assocInsertMany,
    assocGet_assocInsert]

theorem hgetField_poolRegister_ne {n m : String} (h : n ≠ m) (dc ts : String)
    (c : Coord) (f : String) :
    hgetField (poolRegister m dc ts c) n f = hgetField c n f := by
  unfold hgetField poolRegister
  rw [statusOf_hsetNode_ne _ h]
  rfl

theorem hgetField_poolFreeze_ne {n m : String} (h : n ≠ m) (reason ts : String)
    (c : Coord) (f : String) :
    hgetField (poolFreeze m reason ts c) n f = hgetField c n f := by
  unfold hgetField poolFreeze
  rw [statusOf_hsetNode_ne _ h]
  rfl

theorem hgetField_poolUnfreeze_self (n ts : String) (c : Coord) :
    hgetField (poolUnfreeze n ts c) n "is_frozen" = some "false" := by
  simp [hgetField, poolUnfreeze, statusOf_hsetNode_self, assocInsertMany,
    assocGet_assocInsert]

theorem hgetField_poolUnfreeze_ne {n m : String} (h : n ≠ m) (ts : String)
    (c : Coord) (f : String) :
    hgetField (poolUnfreeze m ts c) n f = hgetField c n f := by
  unfold hgetField poolUnfreeze
  rw [statusOf_hsetNode_ne _ h]
  rfl

theorem activeNodes_poolRegister (n dc ts : String) (c : Coord) :
    (poolRegister n dc ts c).activeNodes = saddList c.activeNodes n := rfl

theorem activeNodes_poolFreeze (n reason ts : String) (c : Coord) :
    (poolFreeze n reason ts c).activeNodes = sremList c.activeNodes n := rfl

theorem activeNodes_poolUnfreeze (n ts : String) (c : Coord) :
    (poolUnfreeze n ts c).activeNodes = saddList c.activeNodes n := rfl

theorem hgetField_congr {c' c : Coord} (h : c'.statusHashes = c.statusHashes)
    (n f : String) : hgetField c' n f = hgetField c n f := by
  unfold hgetField statusOf
  rw [h]

theorem gaLoop_cons (n : String) (rest : List String) (c : Coord) :
    gaLoop (n :: rest) c =
      if hbExists c n then (n :: (gaLoop rest c).1, (gaLoop rest c).2)
      else gaLoop rest { c with activeNodes := sremList c.activeNodes n } := by
  by_cases h : hbExists c n
  · rcases hr : gaLoop rest c with ⟨r, c'⟩
    simp [gaLoop, h, hr]
  · simp [gaLoop, h]

theorem gaLoop_statusHashes (l : List String) (c : Coord) :
    (gaLoop l c).2.statusHashes = c.statusHashes := by
  induction l generalizing c with
  | nil => rfl
  | cons n rest ih =>
      rw [gaLoop_cons]
      by_cases h : hbExists c n
      · rw [if_pos h]; exact ih c
      · rw [if_neg h]; exact ih _

theorem gaLoop_active_mem {l : List String} {c : Coord} {m : String}
    (h : m ∈ (gaLoop l c).2.activeNodes) : m ∈ c.activeNodes := by
  induction l generalizing c with
  | nil => exact h
  | cons n rest ih =>
      rw [gaLoop_cons] at h
      by_cases hb : hbExists c n
      · rw [if_pos hb] at h; exact ih h
      · rw [if_neg hb] at h
        exact (mem_sremList.mp (ih h)).1

theorem cdLoop_cons (n : String) (rest : List String) (c : Coord) :
    cdLoop (n :: rest) c =
      if hbExists c n then cdLoop rest c
      else (n :: (cdLoop rest { c with activeNodes := sremList c.activeNodes n }).1,
            (cdLoop rest { c with activeNodes := sremList c.activeNodes n }).2) := by
  by_cases h : hbExists c n
  · simp [cdLoop, h]
  · rcases hr : cdLoop rest { c with activeNodes := sremList c.activeNodes n } with ⟨r, c'⟩
    simp [cdLoop, h, hr]

theorem cdLoop_statusHashes (l : List String) (c : Coord) :
    (cdLoop l c).2.statusHashes = c.statusHashes := by
  induction l generalizing c with
  | nil => rfl
  | cons n rest ih =>
      rw [cdLoop_cons]
      by_cases h : hbExists c n
      · rw [if_pos h]; exact ih c
      · rw [if_neg h]; exact ih _

theorem cdLoop_active_mem {l : List String} {c : Coord} {m : String}
    (h : m ∈ (cdLoop l c).2.activeNodes) : m ∈ c.activeNodes := by
  induction l generalizing c with
  | nil => exact h
  | cons n rest ih =>
      rw [cdLoop_cons] at h
      by_cases hb : hbExists c n
      · rw [if_pos hb] at h; exact ih h
      · rw [if_neg hb] at h
        exact (mem_sremList.mp (ih h)).1

theorem activeNotFrozen_applyOp {c : Coord} (h : ActiveNotFrozen c) (op : PoolOp) :
    ActiveNotFrozen (applyOp op c) := by
  cases op with
  | register n dc ts =>
      intro m hm
      simp only [applyOp] at hm ⊢
      by_cases he : m = n
      · subst he; exact hgetField_poolRegister_self m dc ts c
      · rw [hgetField_poolRegister_ne he]
        rw [activeNodes_poolRegister] at hm
        rcases mem_saddList.mp hm with hm' | rfl
        · exact h m hm'
        · exact absurd rfl he
  | freeze n reason ts =>
      intro m hm
      simp only [applyOp] at hm ⊢
      rw [activeNodes_poolFreeze] at hm
      obtain ⟨hm', hne⟩ := mem_sremList.mp hm
      rw [hgetField_poolFreeze_ne hne]
      exact h m hm'
  | unfreeze n ts =>
      intro m hm
      simp only [applyOp] at hm ⊢
      by_cases he : m = n
      · subst he; exact hgetField_poolUnfreeze_self m ts c
      · rw [hgetField_poolUnfreeze_ne he]
        rw [activeNodes_poolUnfreeze] at hm
        rcases mem_saddList.mp hm with hm' | rfl
        · exact h m hm'
        · exact absurd rfl he
  | heartbeat n dc ts metrics => exact fun m hm => h m hm
  | expireHb n => exact fun m hm => h m hm
  | getActive =>
      intro m hm
      simp only [applyOp, getActiveNodes] at hm ⊢
      rw [hgetField_congr (gaLoop_statusHashes _ _)]
      exact h m (gaLoop_active_mem hm)
  | cleanupDead =>
      intro m hm
      simp only [applyOp, cleanupDeadNodes] at hm ⊢
      rw [hgetField_congr (cdLoop_statusHashes _ _)]
      exact h m (cdLoop_active_mem hm)

theorem activeNotFrozen_runOps (ops : List PoolOp) {c : Coord}
    (h : ActiveNotFrozen c) : ActiveNotFrozen (runOps ops c) := by
  induction ops generalizing c with
  | nil => exact h
  | cons op rest ih => exact ih (activeNotFrozen_applyOp h op)

/-- C1: for every sequence of `NodePool` operations (register, freeze,
unfreeze, the `get_active_nodes` cleanup, `cleanup_dead_nodes`, plus
heartbeat writes and TTL expiries) starting from the empty coordinator,
every member of `ACTIVE_NODES` has `is_frozen == "false"` in its status
hash. -/
theorem c1_active_implies_not_frozen (ops : List PoolOp) (n : String)
    (h : n ∈ (runOps ops emptyCoord).activeNodes) :
    hgetField (runOps ops emptyCoord) n "is_frozen" = some "false" :=
  activeNotFrozen_runOps ops (fun m hm => absurd hm (by simp [emptyCoord])) n h

/-- Witness for C1 at a concrete operation sequence. -/
theorem c1_witness :
    "node-a" ∈ (runOps [PoolOp.register "node-a" "dc1" "100",
        PoolOp.heartbeat "node-a" "dc1" 100 [], PoolOp.getActive] emptyCoord).activeNodes ∧
    hgetField (runOps [PoolOp.register "node-a" "dc1" "100",
        PoolOp.heartbeat "node-a" "dc1" 100 [], PoolOp.getActive] emptyCoord)
      "node-a" "is_frozen" = some "false" :=
  ⟨by decide, c1_active_implies_not_frozen _ _ (by decide)⟩

/-- C10: `NodePool.register` on any prior coordinator state — in particular
one where the node is frozen (`is_frozen == "true"`, absent from
`ACTIVE_NODES`) — puts the node into both `ALL_NODES` and `ACTIVE_NODES` and
resets its status hash to `is_frozen == "false"`, `is_active == "true"`
(status `registered`); hence an agent restart, whose `run()` calls
`register()`, silently un-freezes an administratively frozen node. -/
theorem c10_register_resets (c : Coord) (n dc ts : String) :
    n ∈ (poolRegister n dc ts c).allNodes ∧
    n ∈ (poolRegister n dc ts c).activeNodes ∧
    hgetField (poolRegister n dc ts c) n "is_frozen" = some "false" ∧
    hgetField (poolRegister n dc ts c) n "is_active" = some "true" ∧
    hgetField (poolRegister n dc ts c) n "status" = some "registered" := by
  refine ⟨self_mem_saddList _ _, self_mem_saddList _ _, ?_, ?_, ?_⟩ <;>
    simp [hgetField, poolRegister, statusOf_hsetNode_self, assocInsertMany,
      assocGet_assocInsert]

theorem gaLoop_fst (l : List String) (c : Coord) :
    (gaLoop l c).1 = l.filter (fun n => hbExists c n) := by
  induction l generalizing c with
  | nil => rfl
  | cons n rest ih =>
      rw [gaLoop_cons]
      by_cases h : hbExists c n
      · rw [if_pos h]
        simp [List.filter_cons, h, ih]
      · rw [if_neg h, ih]
        show rest.filter (fun m => hbExists c m) = (n :: rest).filter (fun m => hbExists c m)
        simp [List.filter_cons, h]

theorem gaLoop_snd_activeNodes (l : List String) (c : Coord) :
    (gaLoop l c).2.activeNodes
      = c.activeNodes.filter (fun m => hbExists c m || !(l.contains m)) := by
  induction l generalizing c with
  | nil => simp [gaLoop]
  | cons n rest ih =>
      rw [gaLoop_cons]
      by_cases h : hbExists c n
      · rw [if_pos h, ih]
        refine List.filter_congr (fun m _ => ?_)
        by_cases hm : m = n
        · subst hm; simp [h]
        · simp [List.contains_cons, hm]
      · rw [if_neg h, ih]
        show (c.activeNodes.filter (fun m => m != n)).filter
            (fun m => hbExists c m || !(rest.contains m))
          = c.activeNodes.filter (fun m => hbExists c m || !((n :: rest).contains m))
        rw [List.filter_filter]
        refine List.filter_congr (fun m _ => ?_)
        by_cases hm : m = n
        · subst hm; simp [h]
        · simp [List.contains_cons, hm]

/-- C7: `NodePool.get_active_nodes` returns exactly the members of
`ACTIVE_NODES` whose heartbeat key still exists, removes from
`ACTIVE_NODES` every member whose heartbeat record is absent (leaving
exactly the live members), and on the empty coordinator returns the empty
list without error. -/
theorem c7_get_active_nodes (c : Coord) :
    (getActiveNodes c).1 = c.activeNodes.filter (fun n => hbExists c n) ∧
    (getActiveNodes c).2.activeNodes = c.activeNodes.filter (fun n => hbExists c n) ∧
    getActiveNodes emptyCoord = ([], emptyCoord) := by
  refine ⟨gaLoop_fst c.activeNodes c, ?_, rfl⟩
  rw [getActiveNodes, gaLoop_snd_activeNodes]
  refine List.filter_congr (fun m hm => ?_)
  have hc : c.activeNodes.contains m = true := List.elem_iff.mpr hm
  simp [hc]
  exact fun h => absurd hm h

theorem hgetField_poolFreeze_self_details (n reason ts : String) (c : Coord) :
    hgetField (poolFreeze n reason ts c) n "details" = some reason := by
  simp [hgetField, poolFreeze, statusOf_hsetNode_self, assocInsertMany,
    assocGet_assocInsert]

/-- C6: every event appended by `NodeAgent.freeze` is a `node_frozen` event
whose `active_nodes` snapshot does not contain the node (the `SREM` of
`NodePool.freeze` runs before `publish_event` reads `SMEMBERS active`), and
every event appended by `NodeAgent.unfreeze` is a `node_unfrozen` event
whose snapshot does contain it. -/
theorem c6_event_snapshot (s : AgentState) (nid reason ts evTs : String) (e : NodeEvent) :
    (e ∈ (agentFreeze nid reason ts evTs s).events → e ∈ s.events ∨
      (e.event = "node_frozen" ∧ e.node_id = nid ∧ nid ∉ e.active_nodes)) ∧
    (e ∈ (agentUnfreeze nid ts evTs s).events → e ∈ s.events ∨
      (e.event = "node_unfrozen" ∧ e.node_id = nid ∧ nid ∈ e.active_nodes)) := by
  constructor
  · intro he
    unfold agentFreeze at he
    by_cases h : s.is_frozen
    · rw [if_pos h] at he
      exact Or.inl he
    · rw [if_neg h] at he
      simp only [List.mem_append, List.mem_singleton] at he
      rcases he with he | rfl
      · exact Or.inl he
      · refine Or.inr ⟨rfl, rfl, ?_⟩
        show nid ∉ sremList s.coord.activeNodes nid
        exact not_mem_sremList_self _ _
  · intro he
    unfold agentUnfreeze at he
    by_cases h : s.is_frozen
    · rw [if_pos h] at he
      simp only [List.mem_append, List.mem_singleton] at he
      rcases he with he | rfl
      · exact Or.inl he
      · refine Or.inr ⟨rfl, rfl, ?_⟩
        show nid ∈ saddList s.coord.activeNodes nid
        exact self_mem_saddList _ _
    · rw [if_neg h] at he
      exact Or.inl he

/-- An agent freshly registered on an empty coordinator. -/
def c6s : AgentState := initAgent (poolRegister "node-a" "dc1" "t0" emptyCoord)

/-- The agent of `c6s` after a self-freeze. -/
def c6sf : AgentState := agentFreeze "node-a" "maintenance" "t1" "e1" c6s

/-- The `node_frozen` event published during `c6sf` (the active set is empty
after the `SREM`). -/
def c6ev : NodeEvent :=
  { event := "node_frozen", node_id := "node-a", timestamp := "e1"
    reason := "maintenance", active_nodes := [], extra := [] }

/-- Witness for C6 at a concrete freeze. -/
theorem c6_witness :
    c6ev ∈ c6sf.events ∧
    (c6ev ∈ c6s.events ∨
      (c6ev.event = "node_frozen" ∧ c6ev.node_id = "node-a" ∧
        "node-a" ∉ c6ev.active_nodes)) :=
  ⟨by decide, (c6_event_snapshot c6s "node-a" "maintenance" "t1" "e1" c6ev).1 (by decide)⟩

/-- The agent of `c6s` after `freeze("maintenance")` then `freeze("upgrade")`. -/
def c2s2 : AgentState :=
  agentFreeze "node-a" "upgrade" "t2" "e2" (agentFreeze "node-a" "maintenance" "t1" "e1" c6s)

/-- C2 counterexample: two consecutive `NodeAgent.freeze("maintenance")`,
`freeze("upgrade")` calls leave `details == "maintenance"`, not the second
reason — the second call is a no-op behind the `if not self.is_frozen`
guard — refuting `details == r2`. -/
theorem c2_counterexample :
    hgetField c2s2.coord "node-a" "details" = some "maintenance" ∧
    hgetField c2s2.coord "node-a" "details" ≠ some "upgrade" := by
  decide

/-- C2 (amended): on an initially-unfrozen agent, two consecutive
`freeze(r1)`, `freeze(r2)` calls leave the node frozen with `details == r1`
(the second call is a no-op), and produce exactly one `node_frozen` event —
in particular at most two. -/
theorem c2_double_freeze (s : AgentState) (nid r1 r2 ts1 ts2 e1 e2 : String)
    (h : s.is_frozen = false) :
    (agentFreeze nid r2 ts2 e2 (agentFreeze nid r1 ts1 e1 s)).is_frozen = true ∧
    hgetField (agentFreeze nid r2 ts2 e2 (agentFreeze nid r1 ts1 e1 s)).coord nid "details"
      = some r1 ∧
    (agentFreeze nid r2 ts2 e2 (agentFreeze nid r1 ts1 e1 s)).events
      = s.events
        ++ [publishEvent (poolFreeze nid r1 ts1 s.coord) "node_frozen" nid r1 e1 []] := by
  have hs1 : agentFreeze nid r1 ts1 e1 s
      = { s with
            is_frozen := true,
            coord := poolFreeze nid r1 ts1 s.coord,
            events := s.events ++
              [publishEvent (poolFreeze nid r1 ts1 s.coord) "node_frozen" nid r1 e1 []] } := by
    unfold agentFreeze
    rw [h]
    simp
  have hs2 : agentFreeze nid r2 ts2 e2 (agentFreeze nid r1 ts1 e1 s)
      = agentFreeze nid r1 ts1 e1 s := by
    rw [hs1]
    unfold agentFreeze
    simp
  rw [hs2, hs1]
  exact ⟨rfl, hgetField_poolFreeze_self_details nid r1 ts1 s.coord, rfl⟩

/-- Witness for C2's amended statement at a concrete double freeze. -/
theorem c2_witness :
    c6s.is_frozen = false ∧
    (c2s2.is_frozen = true ∧
     hgetField c2s2.coord "node-a" "details" = some "maintenance" ∧
     c2s2.events = c6s.events
       ++ [publishEvent (poolFreeze "node-a" "maintenance" "t1" c6s.coord)
             "node_frozen" "node-a" "maintenance" "e1" []]) :=
  ⟨rfl, c2_double_freeze c6s "node-a" "maintenance" "upgrade" "t1" "t2" "e1" "e2" rfl⟩

/-- A coordinator in which `node-a` was registered, sent one heartbeat while
unfrozen, and was then frozen: the status hash says `is_frozen "true"` while
the still-live heartbeat record carries `is_frozen: false`. -/
def c3coord : Coord :=
  (agentFreeze "node-a" "maintenance" "t2" "e2"
    (agentSendHeartbeat "node-a" "dc1" 10 20 30 100 c6s)).coord

/-- C3 counterexample: `node-a` has both a status hash and a live heartbeat;
`get_node_status` reports `is_frozen` from the heartbeat (`false`, a JSON
boolean), not from the status hash (`"true"`) — the `**heartbeat` spread is
merged after `**status_data` and wins. -/
theorem c3_counterexample :
    hgetField c3coord "node-a" "is_frozen" = some "true" ∧
    hbExists c3coord "node-a" = true ∧
    assocGet (getNodeStatus c3coord "node-a") "is_frozen" = some (JVal.jbool false) ∧
    assocGet (getNodeStatus c3coord "node-a") "is_frozen" ≠ some (JVal.jstr "true") := by
  decide

/-- C3 (amended): whenever a node's stored heartbeat record is one written by
the agent heartbeat path, `get_node_status` reports the heartbeat's
`is_frozen` boolean — the heartbeat fields are spread after the status-hash
fields, so the heartbeat, not the status hash, decides the reported frozen
state. -/
theorem c3_heartbeat_decides (c : Coord) (n dc : String) (cpu mem disk : Int)
    (fr act : Bool) (ts ts2 : Int)
    (h : assocGet c.heartbeats n
      = some (heartbeatData n dc ts (agentMetrics cpu mem disk fr act ts2))) :
    assocGet (getNodeStatus c n) "is_frozen" = some (JVal.jbool fr) := by
  unfold getNodeStatus
  rw [h]
  simp [heartbeatData, agentMetrics, assocInsertMany, assocInsert, assocGet_assocInsert]

/-- Witness for C3's amended statement on the `c3coord` scenario. -/
theorem c3_witness :
    assocGet c3coord.heartbeats "node-a"
      = some (heartbeatData "node-a" "dc1" 100 (agentMetrics 10 20 30 false true 100)) ∧
    assocGet (getNodeStatus c3coord "node-a") "is_frozen" = some (JVal.jbool false) :=
  ⟨by decide, c3_heartbeat_decides c3coord "node-a" "dc1" 10 20 30 false true 100 100 (by decide)⟩

theorem hgetField_poolUpdateStatus_status (n st det ts : String) (c : Coord) :
    hgetField (poolUpdateStatus n st det ts c) n "status" = some st := by
  simp [hgetField, poolUpdateStatus, statusOf_hsetNode_self, assocInsertMany,
    assocGet_assocInsert]

theorem hgetField_poolUpdateStatus_details (n st det ts : String) (c : Coord) :
    hgetField (poolUpdateStatus n st det ts c) n "details" = some det := by
  simp [hgetField, poolUpdateStatus, statusOf_hsetNode_self, assocInsertMany,
    assocGet_assocInsert]

theorem hgetField_poolUpdateStatus_other (n st det ts : String) (c : Coord) (f : String)
    (h1 : f ≠ "status") (h2 : f ≠ "details") (h3 : f ≠ "timestamp") :
    hgetField (poolUpdateStatus n st det ts c) n f = hgetField c n f := by
  simp [hgetField, poolUpdateStatus, statusOf_hsetNode_self, assocInsertMany,
    assocGet_assocInsert, h1, h2, h3]

theorem hgetField_poolFreeze_other (n reason ts : String) (c : Coord) (f : String)
    (h1 : f ≠ "status") (h2 : f ≠ "details") (h3 : f ≠ "timestamp")
    (h4 : f ≠ "is_frozen") (h5 : f ≠ "is_active") :
    hgetField (poolFreeze n reason ts c) n f = hgetField c n f := by
  simp only [hgetField, poolFreeze, statusOf_hsetNode_self, assocInsertMany,
    List.foldl, assocGet_assocInsert, if_neg h1, if_neg h2, if_neg h3, if_neg h4, if_neg h5]
  rfl

theorem hgetField_agentFreeze_other (nid reason ts evTs : String) (s : AgentState)
    (n f : String)
    (h1 : f ≠ "status") (h2 : f ≠ "details") (h3 : f ≠ "timestamp")
    (h4 : f ≠ "is_frozen") (h5 : f ≠ "is_active") :
    hgetField (agentFreeze nid reason ts evTs s).coord n f = hgetField s.coord n f := by
  unfold agentFreeze
  by_cases h : s.is_frozen
  · rw [if_pos h]
  · rw [if_neg h]
    by_cases he : n = nid
    · subst he
      exact hgetField_poolFreeze_other n reason ts s.coord f h1 h2 h3 h4 h5
    · exact hgetField_poolFreeze_ne he reason ts s.coord f

theorem poolGetCommand_eq (n : String) (c : Coord) (cmd : List (String × JVal))
    (rest : List (List (String × JVal)))
    (h : assocGet c.queues n = some (cmd :: rest)) :
    poolGetCommand n c = (some cmd, { c with queues := assocInsert c.queues n rest }) := by
  unfold poolGetCommand
  rw [h]

/-- A freeze command as the operator CLI enqueues it. -/
def c4cmdFreeze : List (String × JVal) :=
  [("type", JVal.jstr "freeze"), ("reason", JVal.jstr "maintenance")]

/-- An unfreeze command as the operator CLI enqueues it. -/
def c4cmdUnfreeze : List (String × JVal) := [("type", JVal.jstr "unfreeze")]

/-- A fresh agent whose queue holds a freeze command followed by an unfreeze
command. -/
def c4s0 : AgentState :=
  initAgent (poolSendCommand "node-a" c4cmdUnfreeze
    (poolSendCommand "node-a" c4cmdFreeze (poolRegister "node-a" "dc1" "t0" emptyCoord)))

theorem handleCommandsWith_known (handlers : String → Option CommandHandler)
    (nid ts : String) (s s' : AgentState) (cmd : List (String × JVal))
    (rest : List (List (String × JVal))) (ty : String) (h : CommandHandler)
    (out : Except String (List (String × JVal)))
    (hq : assocGet s.coord.queues nid = some (cmd :: rest))
    (hty : assocGet cmd "type" = some (JVal.jstr ty))
    (hh : handlers ty = some h)
    (hstep : h cmd
        { s with coord := { s.coord with queues := assocInsert s.coord.queues nid rest } }
      = (s', out)) :
    handleCommandsWith handlers nid ts s
      = match out with
        | Except.ok res =>
            { s' with coord :=
                poolUpdateStatus nid ("executed_" ++ ty) (jsonDumps res) ts s'.coord }
        | Except.error e =>
            { s' with coord := poolUpdateStatus nid ("error_" ++ ty) e ts s'.coord } := by
  unfold handleCommandsWith
  rw [poolGetCommand_eq nid s.coord cmd rest hq]
  dsimp only
  rw [hty]
  dsimp only
  rw [hh]
  dsimp only
  simp only [hstep]
  cases out <;> rfl

/-- The registered `command_handlers` map
(`_register_builtin_handlers`, node_agent.py lines 79–87): `freeze` and
`unfreeze` are the pure built-ins modelled above; `exec`, `deploy_file` and
`health_check` are registered too, but their callables wrap external I/O
(subprocess, file system, psutil/docker), so they enter as parameters. -/
def c4handlers (nid ts evTs : String) (hExec hDeploy hHealth : CommandHandler)
    (ty : String) : Option CommandHandler :=
  if ty = "freeze" then some (builtinFreeze nid ts evTs)
  else if ty = "unfreeze" then some (builtinUnfreeze nid ts evTs)
  else if ty = "exec" then some hExec
  else if ty = "deploy_file" then some hDeploy
  else if ty = "health_check" then some hHealth
  else none

/-- An arbitrary instantiation for the effectful handler slots in the
concrete scenarios below; the drained commands are `freeze`/`unfreeze`, so
these slots are never dispatched and their behavior is irrelevant there. -/
def unusedHandler : CommandHandler := fun _ s => (s, Except.error "never dispatched")

/-- The handler map of the first concrete drain tick. -/
def c4map1 (ty : String) : Option CommandHandler :=
  c4handlers "node-a" "t1" "e1" unusedHandler unusedHandler unusedHandler ty

/-- The handler map of the second concrete drain tick. -/
def c4map2 (ty : String) : Option CommandHandler :=
  c4handlers "node-a" "t2" "e2" unusedHandler unusedHandler unusedHandler ty

/-- The agent after draining the freeze command. -/
def c4s1 : AgentState := handleCommandsWith c4map1 "node-a" "t1" c4s0

/-- The agent after also draining the unfreeze command. -/
def c4s2 : AgentState := handleCommandsWith c4map2 "node-a" "t2" c4s1

/-- C4 counterexample: after the agent processes a freeze command (a known
kind), its status hash has no field named `executed_freeze` — the result
landed in the `status`/`details` fields instead — and processing the
following unfreeze command (a different kind) overwrites both. -/
theorem c4_counterexample :
    hgetField c4s1.coord "node-a" "executed_freeze" = none ∧
    hgetField c4s1.coord "node-a" "status" = some "executed_freeze" ∧
    hgetField c4s1.coord "node-a" "details"
      = some (jsonDumps [("status", JVal.jstr "frozen"), ("reason", JVal.jstr "maintenance")]) ∧
    hgetField c4s2.coord "node-a" "status" = some "executed_unfreeze" ∧
    hgetField c4s2.coord "node-a" "details"
      = some (jsonDumps [("status", JVal.jstr "active")]) := by
  decide

/-- C4 (amended): for every registered command kind (built-in or plugin) and
every processed command of that kind, the agent records the outcome by
setting the status hash's `status` field to `executed_<kind>` and its
`details` field to `json.dumps(result)` when the handler returns, or
`status` to `error_<kind>` and `details` to the exception text when the
handler raises; the writeback touches only the `status`, `details` and
`timestamp` fields — in particular it creates no hash key named
`executed_<kind>` or `error_<kind>` — and because it sets `status` and
`details` unconditionally from any prior state, a later processed result
for any kind overwrites them. -/
theorem c4_result_in_status_field (handlers : String → Option CommandHandler)
    (nid ts : String) (s : AgentState) (cmd : List (String × JVal))
    (rest : List (List (String × JVal))) (ty : String) (h : CommandHandler)
    (hq : assocGet s.coord.queues nid = some (cmd :: rest))
    (hty : assocGet cmd "type" = some (JVal.jstr ty))
    (hh : handlers ty = some h) :
    (∀ (s' : AgentState) (res : List (String × JVal)),
      h cmd { s with coord :=
          { s.coord with queues := assocInsert s.coord.queues nid rest } }
        = (s', Except.ok res) →
      hgetField (handleCommandsWith handlers nid ts s).coord nid "status"
        = some ("executed_" ++ ty) ∧
      hgetField (handleCommandsWith handlers nid ts s).coord nid "details"
        = some (jsonDumps res) ∧
      ∀ f, f ≠ "status" → f ≠ "details" → f ≠ "timestamp" →
        hgetField (handleCommandsWith handlers nid ts s).coord nid f
          = hgetField s'.coord nid f) ∧
    (∀ (s' : AgentState) (e : String),
      h cmd { s with coord :=
          { s.coord with queues := assocInsert s.coord.queues nid rest } }
        = (s', Except.error e) →
      hgetField (handleCommandsWith handlers nid ts s).coord nid "status"
        = some ("error_" ++ ty) ∧
      hgetField (handleCommandsWith handlers nid ts s).coord nid "details" = some e ∧
      ∀ f, f ≠ "status" → f ≠ "details" → f ≠ "timestamp" →
        hgetField (handleCommandsWith handlers nid ts s).coord nid f
          = hgetField s'.coord nid f) := by
  constructor
  · intro s' res hstep
    rw [handleCommandsWith_known handlers nid ts s s' cmd rest ty h _ hq hty hh hstep]
    exact ⟨hgetField_poolUpdateStatus_status nid _ _ ts _,
           hgetField_poolUpdateStatus_details nid _ _ ts _,
           fun f h1 h2 h3 => hgetField_poolUpdateStatus_other nid _ _ ts _ f h1 h2 h3⟩
  · intro s' e hstep
    rw [handleCommandsWith_known handlers nid ts s s' cmd rest ty h _ hq hty hh hstep]
    exact ⟨hgetField_poolUpdateStatus_status nid _ _ ts _,
           hgetField_poolUpdateStatus_details nid _ _ ts _,
           fun f h1 h2 h3 => hgetField_poolUpdateStatus_other nid _ _ ts _ f h1 h2 h3⟩

/-- The agent of `c4s0` with the freeze command already popped. -/
def c4popped : AgentState :=
  { c4s0 with coord :=
      { c4s0.coord with queues := assocInsert c4s0.coord.queues "node-a" [c4cmdUnfreeze] } }

/-- The handler post-state of the concrete freeze command. -/
def c4frozen : AgentState := (builtinFreeze "node-a" "t1" "e1" c4cmdFreeze c4popped).1

/-- Witness for C4's amended statement on the concrete two-command queue:
the freeze kind is registered, the handler returns, and the writeback lands
in `status`/`details` while `executed_freeze` stays absent. -/
theorem c4_witness :
    assocGet c4s0.coord.queues "node-a" = some (c4cmdFreeze :: [c4cmdUnfreeze]) ∧
    assocGet c4cmdFreeze "type" = some (JVal.jstr "freeze") ∧
    c4map1 "freeze" = some (builtinFreeze "node-a" "t1" "e1") ∧
    (hgetField c4s1.coord "node-a" "status" = some ("executed_" ++ "freeze") ∧
     hgetField c4s1.coord "node-a" "details"
       = some (jsonDumps [("status", JVal.jstr "frozen"), ("reason", JVal.jstr "maintenance")]) ∧
     hgetField c4s1.coord "node-a" "executed_freeze"
       = hgetField c4frozen.coord "node-a" "executed_freeze") := by
  refine ⟨by decide, by decide, rfl, ?_⟩
  have main := (c4_result_in_status_field c4map1 "node-a" "t1" c4s0 c4cmdFreeze
      [c4cmdUnfreeze] "freeze" (builtinFreeze "node-a" "t1" "e1")
      (by decide) (by decide) rfl).1 c4frozen
      [("status", JVal.jstr "frozen"), ("reason", JVal.jstr "maintenance")] rfl
  exact ⟨main.1, main.2.1,
         main.2.2 "executed_freeze" (by decide) (by decide) (by decide)⟩

/-- Whether a rendered config line is a `server` line. -/
def lineIsServer (l : String) : Bool :=
  "    server ".data.isPrefixOf l.data

theorem not_prefix_of_take_ne {p l : List Char} (k : Nat) (hk : k ≤ p.length)
    (h : p.take k ≠ l.take k) : ¬ p <+: l := by
  rintro ⟨t, rfl⟩
  exact h (List.take_append_of_le_length hk).symm

theorem lineIsServer_server (ip : String) (port : Nat) :
    lineIsServer ("    server " ++ ip ++ ":" ++ toString port ++ ";") = true := by
  unfold lineIsServer
  rw [ List.isPrefixOf_iff_prefix]
  simp only [String.data_append, List.append_assoc]
  exact List.prefix_append _ _

theorem lineIsServer_comment (n : String) :
    lineIsServer ("    # Could not resolve IP for " ++ n) = false := by
  unfold lineIsServer
  rw [Bool.eq_false_iff]
  intro hb
  refine not_prefix_of_take_ne 5 (by decide) ?_ (Iff.mp List.isPrefixOf_iff_prefix hb)
  rw [String.data_append, List.take_append_of_le_length (by decide)]
  decide

theorem lineIsServer_updatedLine (now : String) :
    lineIsServer ("# Updated: " ++ now) = false := by
  unfold lineIsServer
  rw [Bool.eq_false_iff]
  intro hb
  refine not_prefix_of_take_ne 1 (by decide) ?_ (Iff.mp List.isPrefixOf_iff_prefix hb)
  rw [String.data_append, List.take_append_of_le_length (by decide)]
  decide

theorem lineIsServer_upstreamLine (name : String) :
    lineIsServer ("upstream " ++ name ++ " \x7b") = false := by
  unfold lineIsServer
  rw [Bool.eq_false_iff]
  intro hb
  have hb' := Iff.mp List.isPrefixOf_iff_prefix hb
  rw [show "upstream " ++ name ++ " \x7b" = "upstream " ++ (name ++ " \x7b") from
    (String.append_assoc _ _ _)] at hb'
  refine not_prefix_of_take_ne 1 (by decide) ?_ hb'
  rw [String.data_append, List.take_append_of_le_length (by decide)]
  decide

theorem lineIsServer_countLine (k : Nat) :
    lineIsServer ("    # Active nodes: " ++ toString k) = false := by
  unfold lineIsServer
  rw [Bool.eq_false_iff]
  intro hb
  refine not_prefix_of_take_ne 5 (by decide) ?_ (Iff.mp List.isPrefixOf_iff_prefix hb)
  rw [String.data_append, List.take_append_of_le_length (by decide)]
  decide

theorem filter_lineIsServer_entries (resolver : String → Option String) (port : Nat)
    (l : List String) :
    (l.map (upstreamEntry resolver port)).filter lineIsServer
      = l.filterMap (fun n => (resolver n).map
          (fun ip => "    server " ++ ip ++ ":" ++ toString port ++ ";")) := by
  induction l with
  | nil => rfl
  | cons n rest ih =>
      cases hre : resolver n with
      | some ip =>
          simp [List.filter_cons, upstreamEntry, hre, lineIsServer_server, ih]
      | none =>
          simp [List.filter_cons, upstreamEntry, hre, lineIsServer_comment, ih]

theorem generateUpstreamLines_filter_server (resolver : String → Option String)
    (port : Nat) (name now : String) (active : List String) :
    (generateUpstreamLines resolver port name now active).filter lineIsServer
      = (sortNodeIds active).filterMap (fun n => (resolver n).map
          (fun ip => "    server " ++ ip ++ ":" ++ toString port ++ ";")) := by
  unfold generateUpstreamLines
  rw [List.filter_append, List.filter_append]
  rw [filter_lineIsServer_entries]
  have h1 : lineIsServer "# Generated by BazBeans Nginx Updater" = false := by decide
  have h2 : lineIsServer "    # Load balancing options" = false := by decide
  have h3 : lineIsServer "    least_conn;" = false := by decide
  have h4 : lineIsServer "\x7d" = false := by decide
  simp [List.filter_cons, lineIsServer_updatedLine, lineIsServer_upstreamLine,
    lineIsServer_countLine, h1, h2, h3, h4]

/-- A concrete IP resolver: only `node-b` resolves. -/
def c5resolver (n : String) : Option String :=
  if n = "node-b" then some "10.0.0.2" else none

/-- An updater that currently tracks `node-a`. -/
def c5state : NginxState :=
  { active_nodes := ["node-a"], upstreamFile := none, backupFile := none }

set_option maxRecDepth 4096 in
/-- C5 counterexample: an event with an *empty* `active_nodes` that differs
from the tracked snapshot triggers a rewrite, but `_update_upstream` re-reads
the active set from Redis (here `["node-b"]`) instead of using the event's
empty list: the written file contains a `server` line for `node-b`, while the
claim requires a file with no `server` lines. -/
theorem c5_counterexample :
    listSetEq [] c5state.active_nodes = false ∧
    (updateUpstreamIfNeeded c5resolver 8000 "app_backend" "NOW" ["node-b"] []
        c5state).upstreamFile
      = some (generateUpstreamConfig c5resolver 8000 "app_backend" "NOW" ["node-b"]) ∧
    "    server 10.0.0.2:8000;"
      ∈ generateUpstreamLines c5resolver 8000 "app_backend" "NOW" ["node-b"] ∧
    (updateUpstreamIfNeeded c5resolver 8000 "app_backend" "NOW" ["node-b"] []
        c5state).upstreamFile
      ≠ some (generateUpstreamConfig c5resolver 8000 "app_backend" "NOW" ([] : List String)) := by
  decide

/-- C5 (amended): when the event's `active_nodes` equals the tracked snapshot
as a set the updater state (file included) is unchanged; otherwise the file is
rewritten from the event's list — except that an *empty* event list makes the
updater re-read the active set from the coordinator and render that instead.
The rendered lines contain one `server <ip>:<port>;` line exactly for each
rendered node whose IP resolves, in lexicographic `node_id` order (the
rendering sorts the ids), and a comment line (never a `server` line) for each
node whose IP does not resolve. -/
theorem c5_upstream_update (resolver : String → Option String) (nodePort : Nat)
    (upstreamName nowStr : String) (redisActive eventActive : List String)
    (s : NginxState) :
    (listSetEq eventActive s.active_nodes = true →
      updateUpstreamIfNeeded resolver nodePort upstreamName nowStr redisActive
        eventActive s = s) ∧
    (listSetEq eventActive s.active_nodes = false → eventActive ≠ [] →
      (updateUpstreamIfNeeded resolver nodePort upstreamName nowStr redisActive
        eventActive s).upstreamFile
        = some (generateUpstreamConfig resolver nodePort upstreamName nowStr eventActive)) ∧
    (listSetEq eventActive s.active_nodes = false → eventActive = [] →
      (updateUpstreamIfNeeded resolver nodePort upstreamName nowStr redisActive
        eventActive s).upstreamFile
        = some (generateUpstreamConfig resolver nodePort upstreamName nowStr redisActive)) ∧
    ((generateUpstreamLines resolver nodePort upstreamName nowStr eventActive).filter
        lineIsServer
      = (sortNodeIds eventActive).filterMap (fun n => (resolver n).map
          (fun ip => "    server " ++ ip ++ ":" ++ toString nodePort ++ ";"))) ∧
    (sortNodeIds eventActive).Sorted (fun a b => a ≤ b) ∧
    (sortNodeIds eventActive).Perm eventActive ∧
    (∀ n ∈ eventActive, resolver n = none →
      ("    # Could not resolve IP for " ++ n)
        ∈ generateUpstreamLines resolver nodePort upstreamName nowStr eventActive) := by
  refine ⟨?_, ?_, ?_, generateUpstreamLines_filter_server resolver nodePort upstreamName
    nowStr eventActive, List.sorted_insertionSort _ _, List.perm_insertionSort _ _, ?_⟩
  · intro h
    simp [updateUpstreamIfNeeded, h]
  · intro h hne
    simp [updateUpstreamIfNeeded, h, updateUpstream, hne]
  · intro h he
    subst he
    simp [updateUpstreamIfNeeded, h, updateUpstream]
  · intro n hn hres
    unfold generateUpstreamLines
    have hn' : n ∈ sortNodeIds eventActive :=
      ((List.perm_insertionSort _ _).mem_iff).mpr hn
    refine List.mem_append.mpr (Or.inl (List.mem_append.mpr (Or.inr ?_)))
    exact List.mem_map.mpr ⟨n, hn', by simp [upstreamEntry, hres]⟩

/-- Witness for C5's amended statement: the empty-event branch on the
concrete scenario. -/
theorem c5_witness :
    listSetEq [] c5state.active_nodes = false ∧
    (updateUpstreamIfNeeded c5resolver 8000 "app_backend" "NOW" ["node-b"] []
        c5state).upstreamFile
      = some (generateUpstreamConfig c5resolver 8000 "app_backend" "NOW" ["node-b"]) :=
  ⟨by decide,
   (c5_upstream_update c5resolver 8000 "app_backend" "NOW" ["node-b"] [] c5state).2.2.1
     (by decide) rfl⟩

/-- C8 counterexample: the empty command string starts with none of the
default allowed prefixes, yet `_cmd_exec` refuses it with
"No command specified" — the falsy check fires before the whitelist — so the
error does not begin with "Command not allowed" as the claim requires. -/
theorem c8_counterexample :
    defaultAllowedExecPrefixes.any (fun p => pyStartsWith "" p) = false ∧
    cmdExec defaultAllowedExecPrefixes [("command", JVal.jstr "")]
      = ExecOutcome.result [("error", JVal.jstr "No command specified")] ∧
    pyStartsWith "No command specified" "Command not allowed" = false := by
  decide

/-- C8 (amended): every nonempty command string starting with none of the
configured prefixes is refused with an error beginning "Command not allowed"
and no subprocess is spawned; an empty command string is refused with
"No command specified", also without a subprocess; every nonempty command
string starting with a configured prefix takes the `subprocess.run` path. -/
theorem c8_exec_allowlist (prefixes : List String) (cmd : List (String × JVal))
    (c : String) (hc : assocGet cmd "command" = some (JVal.jstr c)) :
    (c ≠ "" → prefixes.any (fun p => pyStartsWith c p) = false →
      cmdExec prefixes cmd = ExecOutcome.result
        [("error", JVal.jstr ("Command not allowed. Allowed prefixes: "
            ++ pyListRepr prefixes))] ∧
      pyStartsWith ("Command not allowed. Allowed prefixes: " ++ pyListRepr prefixes)
        "Command not allowed" = true) ∧
    (c = "" → cmdExec prefixes cmd
      = ExecOutcome.result [("error", JVal.jstr "No command specified")]) ∧
    (c ≠ "" → prefixes.any (fun p => pyStartsWith c p) = true →
      cmdExec prefixes cmd = ExecOutcome.subprocess c) := by
  refine ⟨?_, ?_, ?_⟩
  · intro hne hall
    constructor
    · unfold cmdExec
      rw [hc]
      simp [hne, hall]
    · unfold pyStartsWith
      rw [ List.isPrefixOf_iff_prefix, String.data_append]
      exact List.IsPrefix.trans (by decide) (List.prefix_append _ _)
  · intro he
    subst he
    unfold cmdExec
    rw [hc]
    simp
  · intro hne hall
    unfold cmdExec
    rw [hc]
    simp [hne, hall]

/-- Witness for C8's amended statement at `rm -rf /` under the default
allowlist. -/
theorem c8_witness :
    assocGet [("command", JVal.jstr "rm -rf /")] "command"
      = some (JVal.jstr "rm -rf /") ∧
    defaultAllowedExecPrefixes.any (fun p => pyStartsWith "rm -rf /" p) = false ∧
    (cmdExec defaultAllowedExecPrefixes [("command", JVal.jstr "rm -rf /")]
       = ExecOutcome.result [("error", JVal.jstr ("Command not allowed. Allowed prefixes: "
           ++ pyListRepr defaultAllowedExecPrefixes))] ∧
     pyStartsWith ("Command not allowed. Allowed prefixes: "
         ++ pyListRepr defaultAllowedExecPrefixes) "Command not allowed" = true) :=
  ⟨by decide, by decide,
   (c8_exec_allowlist defaultAllowedExecPrefixes [("command", JVal.jstr "rm -rf /")]
     "rm -rf /" (by decide)).1 (by decide) (by decide)⟩

/-- C9: a `deploy_file` command (with both fields present) whose path
normalizes to start with `..` is rejected with "Path traversal not allowed"
and the file system is untouched; every accepted path has the parent
directory chain created and the file written with the given content at the
normalized path. -/
theorem c9_deploy_file (path content : String) (fs : FileSys) :
    (pyStartsWith (normpath path) ".." = true →
      cmdDeployFile (some path) (some content) fs
        = ([("error", JVal.jstr "Path traversal not allowed")], fs)) ∧
    (path ≠ "" → pyStartsWith (normpath path) ".." = false →
      (cmdDeployFile (some path) (some content) fs).1
        = [("status", JVal.jstr "deployed"), ("path", JVal.jstr (normpath path))] ∧
      assocGet (cmdDeployFile (some path) (some content) fs).2.files (normpath path)
        = some content ∧
      ∀ d ∈ ancestors (parentDir (normpath path)),
        d ∈ (cmdDeployFile (some path) (some content) fs).2.dirs) := by
  constructor
  · intro htrav
    have hne : path ≠ "" := by
      intro he
      subst he
      rw [show normpath "" = "." from rfl] at htrav
      exact absurd htrav (by decide)
    unfold cmdDeployFile
    simp [hne, htrav]
  · intro hne htrav
    unfold cmdDeployFile
    simp only [hne, htrav, Option.isNone_some, Bool.or_false, if_neg, if_false,
      decide_eq_true_eq, Option.getD_some]
    refine ⟨?_, ?_, ?_⟩
    · simp [hne]
    · simp [hne]
      rw [assocGet_assocInsert]
      simp
    · intro d hd
      simp [hne]
      exact Or.inr hd

/-- Witness for C9 on the traversal path `../../etc/passwd` and the accepted
path `/opt/app/x.txt`. -/
theorem c9_witness :
    pyStartsWith (normpath "../../etc/passwd") ".." = true ∧
    cmdDeployFile (some "../../etc/passwd") (some "x") ⟨[], []⟩
      = ([("error", JVal.jstr "Path traversal not allowed")], ⟨[], []⟩) ∧
    pyStartsWith (normpath "/opt/app/x.txt") ".." = false ∧
    ((cmdDeployFile (some "/opt/app/x.txt") (some "hello") ⟨[], []⟩).1
       = [("status", JVal.jstr "deployed"), ("path", JVal.jstr (normpath "/opt/app/x.txt"))] ∧
     assocGet (cmdDeployFile (some "/opt/app/x.txt") (some "hello") ⟨[], []⟩).2.files
       (normpath "/opt/app/x.txt") = some "hello" ∧
     ∀ d ∈ ancestors (parentDir (normpath "/opt/app/x.txt")),
       d ∈ (cmdDeployFile (some "/opt/app/x.txt") (some "hello") ⟨[], []⟩).2.dirs) :=
  ⟨by decide,
   (c9_deploy_file "../../etc/passwd" "x" ⟨[], []⟩).1 (by decide),
   by decide,
   (c9_deploy_file "/opt/app/x.txt" "hello" ⟨[], []⟩).2 (by decide) (by decide)⟩

end BazBeans
